import Mathlib

/-!
Verification of `bot.py` (Telegram chat bot relaying messages to an
OpenAI-compatible gateway).  The Python source is shallowly embedded below:
the sqlite tables become lists of rows, the handlers become pure functions
on that state, and the streaming loop of `handle_message` becomes a fold
over the incoming chunks.
-/

namespace TgBot

/-! ### Character-list helpers modelling the Python string builtins used by the source -/

/-- Does the second list start with the first?  Models Python `str.startswith`
restricted to character lists. -/
def startsWithL : List Char → List Char → Bool
  | [], _ => true
  | _ :: _, [] => false
  | a :: as, b :: bs => a == b && startsWithL as bs

/-- Models Python's substring test `needle in hay`. -/
def hasSubL (needle : List Char) : List Char → Bool
  | [] => needle.isEmpty
  | hay@(_ :: t) => startsWithL needle hay || hasSubL needle t

/-- Models Python `str.split(sep)` for a one-character separator: the list of
groups between occurrences of `sep` (never empty). -/
def splitCharL (sep : Char) : List Char → List (List Char)
  | [] => [[]]
  | c :: rest =>
    if c == sep then [] :: splitCharL sep rest
    else
      match splitCharL sep rest with
      | [] => [[c]]
      | g :: gs => (c :: g) :: gs

/-- Fuelled worker for `replaceL`: scans left to right and replaces each
non-overlapping occurrence of `a` by `b`, as Python `str.replace` does. -/
def replaceLAux (a b : List Char) : Nat → List Char → List Char
  | 0, hay => hay
  | _ + 1, [] => []
  | fuel + 1, c :: rest =>
    if !a.isEmpty && startsWithL a (c :: rest) then
      b ++ replaceLAux a b fuel ((c :: rest).drop a.length)
    else
      c :: replaceLAux a b fuel rest

/-- Models Python `str.replace(a, b)` (all occurrences, left to right,
non-overlapping) for a non-empty pattern `a`. -/
def replaceL (a b hay : List Char) : List Char :=
  replaceLAux a b hay.length hay

/-- Models Python `str.endswith(suffix)`. -/
def endsWithL (sfx l : List Char) : Bool :=
  startsWithL sfx.reverse l.reverse

/-- Models Python `s[:n]`: the first `n` characters of `s`. -/
def pyTake (s : String) (n : Nat) : String := ⟨s.data.take n⟩

/-- Models Python `s.replace(a, b)` on strings. -/
def pyReplace (s a b : String) : String := ⟨replaceL a.data b.data s.data⟩

/-- Models Python `s.split(sep)[-1]` for a one-character separator `sep`:
the segment after the last occurrence of `sep` (the whole string when `sep`
does not occur). -/
def pyLastSegment (s : String) (sep : Char) : String :=
  ⟨(splitCharL sep s.data).getLastD []⟩

/-- Models Python `s.endswith(sfx)`. -/
def pyEndsWith (s sfx : String) : Bool := endsWithL sfx.data s.data

/-- Models Python `s.lower()` for the ASCII identifiers the catalog uses. -/
def pyLower (s : String) : String := ⟨s.data.map Char.toLower⟩

/-- Models Python `needle in hay` on strings. -/
def pyContains (needle hay : String) : Bool := hasSubL needle.data hay.data

/-! ### The sqlite state (`chats`, `history`, `favorites` tables)

`datetime.now()` is modelled by a counter `clock` that advances on every
insertion, and the `AUTOINCREMENT` primary keys by the counters
`nextChatId` / `nextMsgId`. -/

/-- A row of the `chats` table. -/
structure ChatRow where
  chat_id : Nat
  user_id : Nat
  model : String
  created_at : Nat
  title : String
deriving DecidableEq

/-- A row of the `history` table. -/
structure HistRow where
  message_id : Nat
  chat_id : Nat
  role : String
  content : String
  timestamp : Nat
deriving DecidableEq

/-- The bot's persistent state: the three sqlite tables plus the
autoincrement counters and the clock. -/
structure DB where
  chats : List ChatRow
  history : List HistRow
  favorites : List (Nat × String)
  nextChatId : Nat
  nextMsgId : Nat
  clock : Nat
deriving DecidableEq

/-- The freshly created database (`_create_tables`). -/
def DB.empty : DB :=
  { chats := [], history := [], favorites := [],
    nextChatId := 1, nextMsgId := 1, clock := 0 }

/-- `HISTORY_LIMIT = 10` from the source. -/
def HISTORY_LIMIT : Nat := 10

/-- `Database.create_chat`: inserts a chats row and returns `lastrowid`. -/
def create_chat (db : DB) (user_id : Nat) (model title : String) : DB × Nat :=
  ({ db with
      chats := db.chats ++
        [{ chat_id := db.nextChatId, user_id := user_id, model := model,
           created_at := db.clock, title := title }],
      nextChatId := db.nextChatId + 1,
      clock := db.clock + 1 },
   db.nextChatId)

/-- `Database.delete_chat`: deletes the chats row and the history rows with
the given `chat_id`. -/
def delete_chat (db : DB) (chat_id : Nat) : DB :=
  { db with
      chats := db.chats.filter (fun c => c.chat_id != chat_id),
      history := db.history.filter (fun h => h.chat_id != chat_id) }

/-- `Database.rename_chat`: updates the title of the chats row with the given
`chat_id`. -/
def rename_chat (db : DB) (chat_id : Nat) (new_title : String) : DB :=
  { db with
      chats := db.chats.map
        (fun c => if c.chat_id == chat_id then { c with title := new_title } else c) }

/-- `Database.add_message`: inserts a history row stamped with the current
time. -/
def add_message (db : DB) (chat_id : Nat) (role content : String) : DB :=
  { db with
      history := db.history ++
        [{ message_id := db.nextMsgId, chat_id := chat_id, role := role,
           content := content, timestamp := db.clock }],
      nextMsgId := db.nextMsgId + 1,
      clock := db.clock + 1 }

/-- Insertion step of `ORDER BY timestamp DESC`. -/
def insertTsDesc (r : HistRow) : List HistRow → List HistRow
  | [] => [r]
  | x :: xs => if r.timestamp ≤ x.timestamp then x :: insertTsDesc r xs else r :: x :: xs

/-- `ORDER BY timestamp DESC` as an insertion sort. -/
def sortTsDesc (l : List HistRow) : List HistRow :=
  l.foldr insertTsDesc []

/-- `Database.get_history`: the rows of the chat ordered by timestamp
descending, limited, then reversed into chronological order and projected to
role/content pairs. -/
def get_history (db : DB) (chat_id : Nat) (limit : Nat) : List (String × String) :=
  ((((sortTsDesc (db.history.filter (fun r => r.chat_id == chat_id))).take
      limit).map (fun r => (r.role, r.content))).reverse)

/-- `Database.delete_all_chats`: deletes the history rows of the user's chats,
then the user's chats rows. -/
def delete_all_chats (db : DB) (user_id : Nat) : DB :=
  { db with
      history := db.history.filter
        (fun h => !(db.chats.any (fun c => c.user_id == user_id && c.chat_id == h.chat_id))),
      chats := db.chats.filter (fun c => c.user_id != user_id) }

/-- `Database.get_favorites`: the model ids the user has marked favorite. -/
def get_favorites (db : DB) (user_id : Nat) : List String :=
  (db.favorites.filter (fun p => p.1 == user_id)).map (fun p => p.2)

/-- `Database.add_favorite`: `INSERT OR IGNORE` under the
`(user_id, model_id)` primary key. -/
def add_favorite (db : DB) (user_id : Nat) (model_id : String) : DB :=
  if (user_id, model_id) ∈ db.favorites then db
  else { db with favorites := db.favorites ++ [(user_id, model_id)] }

/-- `Database.remove_favorite`. -/
def remove_favorite (db : DB) (user_id : Nat) (model_id : String) : DB :=
  { db with
      favorites := db.favorites.filter
        (fun p => !(p.1 == user_id && p.2 == model_id)) }

/-! ### Handlers writing chat titles -/

/-- Handler `chat_named`: truncates the message text to 30 characters and
creates the chat with that title.  Returns the new state, the new chat id and
the stored title. -/
def chat_named (db : DB) (user_id : Nat) (selected_model text : String) :
    DB × Nat × String :=
  let title := pyTake text 30
  let r := create_chat db user_id selected_model title
  (r.1, r.2, title)

/-- Handler `rename_chat_finish`: truncates the message text to 30 characters
and renames the chat.  Returns the new state and the stored title. -/
def rename_chat_finish (db : DB) (renaming_chat : Nat) (text : String) :
    DB × String :=
  let new_title := pyTake text 30
  (rename_chat db renaming_chat new_title, new_title)

/-- Handler `toggle_favorite`: removes the model from the user's favorites
when present, adds it otherwise. -/
def toggle_favorite (db : DB) (user_id : Nat) (model_key : String) : DB :=
  if model_key ∈ get_favorites db user_id then remove_favorite db user_id model_key
  else add_favorite db user_id model_key

/-! ### The in-memory model catalog (`MODELS`, `get_available_models`,
`update_models`) -/

/-- The value stored in `MODELS` for one model id. -/
structure ModelInfo where
  name : String
  multimodal : Bool
deriving DecidableEq

/-- `MULTIMODAL_INDICATORS` from `update_models`. -/
def MULTIMODAL_INDICATORS : List String := ["gpt-4", "multimodal", "vision"]

/-- `get_available_models`: keeps the provider ids ending in `":free"`. -/
def get_available_models (ids : List String) : List String :=
  ids.filter (fun m => pyEndsWith m ":free")

/-- `model.split('/')[-1].replace(':free', '')` from `update_models`. -/
def short_name (model : String) : String :=
  pyReplace (pyLastSegment model '/') ":free" ""

/-- `any(ind in short_name.lower() for ind in MULTIMODAL_INDICATORS)`. -/
def is_multimodal (sn : String) : Bool :=
  MULTIMODAL_INDICATORS.any (fun ind => pyContains ind (pyLower sn))

/-- The catalog entry `{"name": ..., "multimodal": ...}` built for a model id. -/
def model_entry (model : String) : ModelInfo :=
  { name := short_name model, multimodal := is_multimodal (short_name model) }

/-- Python dict assignment `d[k] = v`: overwrites the value when the key is
present, appends the binding otherwise. -/
def dictAssign (d : List (String × ModelInfo)) (k : String) (v : ModelInfo) :
    List (String × ModelInfo) :=
  if (d.lookup k).isSome then
    d.map (fun p => if p.1 == k then (k, v) else p)
  else d ++ [(k, v)]

/-- `update_models`: starts from an empty dict (`MODELS = {}`) and stores an
entry for every available model; the previous catalog is discarded. -/
def update_models (prev : List (String × ModelInfo)) (ids : List String) :
    List (String × ModelInfo) :=
  let _ := prev
  (get_available_models ids).foldl (fun d m => dictAssign d m (model_entry m)) []

/-! ### The streaming loop of `handle_message`

Each chunk of the stream carries `delta.content` (`none` models a chunk whose
delta has no content), the value of `time.monotonic()` observed while handling
it, and whether the transport edit would succeed if attempted. -/

/-- `edit_interval = 1.5` from `handle_message`. -/
def edit_interval : ℚ := 3 / 2

/-- The loop state of the streaming section of `handle_message`. -/
structure StreamState where
  full_answer : String
  last_edit_time : ℚ
  edits : List String
deriving DecidableEq

/-- The state before the first chunk: empty answer, `last_edit_time`
initialised to the current time, no edits sent. -/
def initial_state (t0 : ℚ) : StreamState :=
  { full_answer := "", last_edit_time := t0, edits := [] }

/-- One chunk of the stream as seen by the loop. -/
structure StreamInput where
  delta : Option String
  now : ℚ
  edit_ok : Bool
deriving DecidableEq

/-- The body of `async for chunk in stream`: a chunk with truthy content is
appended to `full_answer`; an edit of the placeholder (with the `"●"` cursor)
is attempted exactly when the elapsed time reaches `edit_interval` or the
delta is shorter than 3 characters; `last_edit_time` advances only when the
edit succeeds.  The second component records whether an edit was attempted. -/
def process_chunk (st : StreamState) (delta : Option String) (now : ℚ)
    (edit_ok : Bool) : StreamState × Bool :=
  match delta with
  | none => (st, false)
  | some s =>
    if s = "" then (st, false)
    else
      let full := st.full_answer ++ s
      if edit_interval ≤ now - st.last_edit_time ∨ s.length < 3 then
        if edit_ok then
          ({ full_answer := full, last_edit_time := now,
             edits := st.edits ++ [full ++ "●"] }, true)
        else
          ({ st with full_answer := full }, true)
      else
        ({ st with full_answer := full }, false)

/-- The whole streaming loop as a fold over the chunks. -/
def run_stream (st : StreamState) : List StreamInput → StreamState :=
  List.foldl (fun st i => (process_chunk st i.delta i.now i.edit_ok).1) st

/-- The concatenation of the delta contents of a stream, in arrival order
(chunks without content contribute nothing). -/
def concat_deltas (inputs : List StreamInput) : String :=
  (inputs.map (fun i => i.delta.getD "")).foldr (fun a b => a ++ b) ""

/-! ### The error dispatch of `handle_message` -/

/-- The provider failure categories distinguished by the `except` clauses. -/
inductive StreamError where
  | api_connection
  | rate_limit
  | api_fault (detail : String)
  | other (detail : String)
deriving DecidableEq

/-- The static user-facing text each `except` clause answers with. -/
def error_reply : StreamError → String
  | .api_connection => "🔌 Проблемы с подключением к API"
  | .rate_limit => "⏳ Превышен лимит запросов, попробуйте позже"
  | .api_fault _ => "⚠️ Ошибка API, попробуйте еще раз"
  | .other _ => "⚠️ Произошла ошибка при обработке запроса"

/-- The log line prefix each `except` clause writes. -/
def error_log : StreamError → String
  | .api_connection => "Ошибка подключения"
  | .rate_limit => "Лимит запросов"
  | .api_fault _ => "API ошибка"
  | .other _ => "Ошибка"

/-- The externally visible actions `handle_message` can perform. -/
inductive BotAction where
  | api_request
  | edit (text : String)
  | answer (text : String)
  | log_error (text : String)
  | sleep (seconds : ℚ)
deriving DecidableEq

/-- Is the action a request to the inference provider? -/
def is_request : BotAction → Bool
  | .api_request => true
  | _ => false

/-- Is the action a wait? -/
def is_sleep : BotAction → Bool
  | .sleep _ => true
  | _ => false

/-- How the `try` block of `handle_message` ends: either the stream was
consumed in full, or a provider error was raised. -/
inductive StreamOutcome where
  | success (inputs : List StreamInput)
  | failure (e : StreamError)

/-- The `try`/`except` section of `handle_message`: one provider request is
issued; on success the throttled edits are followed by a final edit with the
full answer (no cursor) and the answer is stored as an `"assistant"` turn; on
a provider error the handler logs and answers with the category's static
text, leaving the database unchanged. -/
def handle_outcome (db : DB) (chat_id : Nat) (t0 : ℚ) :
    StreamOutcome → List BotAction × DB
  | .success inputs =>
    let st := run_stream (initial_state t0) inputs
    (.api_request :: (st.edits.map .edit ++ [.edit st.full_answer]),
     add_message db chat_id "assistant" st.full_answer)
  | .failure e =>
    ([.api_request, .log_error (error_log e), .answer (error_reply e)], db)

/-- The spec's reading of the short name (for comparison with `short_name`):
the segment after the last `'/'` with only the trailing `":free"` removed. -/
def spec_short_name (model : String) : String :=
  let seg := pyLastSegment model '/'
  if pyEndsWith seg ":free" then ⟨seg.data.take (seg.data.length - 5)⟩ else seg

/-- `n` consecutive `add_message` calls for the same chat. -/
def add_messages (db : DB) (chat_id : Nat) (role content : String) : Nat → DB
  | 0 => db
  | n + 1 => add_message (add_messages db chat_id role content n) chat_id role content

/-- Invariant of the catalog dict: every stored value is the entry built for
its key. -/
def catalogInv (d : List (String × ModelInfo)) : Prop :=
  ∀ p ∈ d, p.2 = model_entry p.1

/-- The fold in `update_models` over a list of keys. -/
def catalogFold (d : List (String × ModelInfo)) (ks : List String) :
    List (String × ModelInfo) :=
  ks.foldl (fun d m => dictAssign d m (model_entry m)) d

/-! ## Helper lemmas -/

theorem pyTake_length_le (s : String) (n : Nat) : (pyTake s n).length ≤ n := by
  show (s.data.take n).length ≤ n
  simp

theorem get_history_length_le (db : DB) (chat_id limit : Nat) :
    (get_history db chat_id limit).length ≤ limit := by
  simp only [get_history, List.length_reverse, List.length_map, List.length_take]
  exact Nat.min_le_left _ _

/-! ## The claims -/

/-- C8: every chat title stored through the public handlers is at most 30
characters long: `chat_named` and `rename_chat_finish` both truncate the
user-supplied text to its first 30 characters before writing it to the
`chats` table. -/
theorem C8_title_truncation (db : DB) (u : Nat) (model text : String)
    (db2 : DB) (cid : Nat) (text2 : String) :
    (chat_named db u model text).1.chats
      = db.chats ++ [{ chat_id := db.nextChatId, user_id := u, model := model,
                       created_at := db.clock, title := pyTake text 30 }]
    ∧ (pyTake text 30).length ≤ 30
    ∧ (rename_chat_finish db2 cid text2).1.chats
      = db2.chats.map
          (fun c => if c.chat_id == cid then { c with title := pyTake text2 30 } else c)
    ∧ (pyTake text2 30).length ≤ 30 :=
  ⟨rfl, pyTake_length_le text 30, rfl, pyTake_length_le text2 30⟩

/-- C4 counterexample: `add_message` never deletes anything, so after 11
insertions the chat stores 11 history rows — more than the retention count
`HISTORY_LIMIT = 10`.  No operation of the database class trims a session's
stored history. -/
theorem C4_counterexample :
    ((add_messages DB.empty 1 "user" "x" 11).history.filter
        (fun r => r.chat_id == 1)).length = 11
    ∧ HISTORY_LIMIT < 11 := by decide

/-- C4 amended: the stored history table is never truncated — `add_message`
only inserts, so a session's stored history grows without bound; the fixed
retention count applies only when reading, `get_history` returning at most
`limit` rows. -/
theorem C4_retention_read_only (db : DB) (chat_id : Nat) (role content : String)
    (n : Nat) :
    (add_messages db chat_id role content n).history.length
      = db.history.length + n
    ∧ (get_history db chat_id HISTORY_LIMIT).length ≤ HISTORY_LIMIT := by
  refine ⟨?_, get_history_length_le db chat_id HISTORY_LIMIT⟩
  induction n with
  | zero => rfl
  | succ n ih => simp [add_messages, add_message, ih]; omega

/-- C2 counterexample: on a rate-limit error the handler issues no second
provider request and never sleeps; it leaves the database unchanged and just
reports.  This contradicts the claimed wait-and-retry behaviour. -/
theorem C2_counterexample :
    ((handle_outcome DB.empty 1 0 (.failure .rate_limit)).1.countP is_request) = 1
    ∧ ((handle_outcome DB.empty 1 0 (.failure .rate_limit)).1.countP is_sleep) = 0
    ∧ (handle_outcome DB.empty 1 0 (.failure .rate_limit)).2 = DB.empty := by
  decide

/-- C2 amended: when the message handler detects a rate-limit response it
catches the error, logs it and replies with the static message
"⏳ Превышен лимит запросов, попробуйте позже"; it performs no wait and no
retry — exactly one provider request is issued. -/
theorem C2_rate_limit_no_retry (db : DB) (chat_id : Nat) (t0 : ℚ) :
    (handle_outcome db chat_id t0 (.failure .rate_limit)).1
      = [.api_request, .log_error "Лимит запросов",
         .answer "⏳ Превышен лимит запросов, попробуйте позже"]
    ∧ ((handle_outcome db chat_id t0 (.failure .rate_limit)).1.countP is_request) = 1
    ∧ ((handle_outcome db chat_id t0 (.failure .rate_limit)).1.countP is_sleep) = 0
    ∧ (handle_outcome db chat_id t0 (.failure .rate_limit)).2 = db :=
  ⟨rfl, rfl, rfl, rfl⟩

/-- C5: the `try`/`except` section of the message handler answers every
provider failure with a static user-facing text (no exception escapes the
dispatch); the three specific categories — connectivity, rate limit, generic
API fault — map to pairwise distinct static messages, and every other
exception maps to the single generic static message. -/
theorem C5_error_policy (db : DB) (chat_id : Nat) (t0 : ℚ) (e : StreamError) :
    .answer (error_reply e) ∈ (handle_outcome db chat_id t0 (.failure e)).1
    ∧ (∀ d, error_reply (.api_fault d) = "⚠️ Ошибка API, попробуйте еще раз")
    ∧ (∀ d, error_reply (.other d) = "⚠️ Произошла ошибка при обработке запроса")
    ∧ error_reply .api_connection ≠ error_reply .rate_limit
    ∧ (∀ d, error_reply .api_connection ≠ error_reply (.api_fault d))
    ∧ (∀ d, error_reply .rate_limit ≠ error_reply (.api_fault d))
    ∧ (∀ d, error_reply .api_connection ≠ error_reply (.other d))
    ∧ (∀ d, error_reply .rate_limit ≠ error_reply (.other d))
    ∧ (∀ d d', error_reply (.api_fault d) ≠ error_reply (.other d')) := by
  refine ⟨?_, fun d => rfl, fun d => rfl, by decide,
    fun d => (by decide :
      error_reply .api_connection ≠ error_reply (.api_fault "")),
    fun d => (by decide :
      error_reply .rate_limit ≠ error_reply (.api_fault "")),
    fun d => (by decide :
      error_reply .api_connection ≠ error_reply (.other "")),
    fun d => (by decide :
      error_reply .rate_limit ≠ error_reply (.other "")),
    fun d d' => (by decide :
      error_reply (.api_fault "") ≠ error_reply (.other ""))⟩
  simp [handle_outcome]

/-- Membership in `get_favorites` is membership of the pair in the
`favorites` table. -/
theorem mem_get_favorites (db : DB) (user_id : Nat) (model_id : String) :
    model_id ∈ get_favorites db user_id ↔ (user_id, model_id) ∈ db.favorites := by
  simp only [get_favorites, List.mem_map, List.mem_filter, beq_iff_eq]
  constructor
  · rintro ⟨⟨a, b⟩, ⟨hm, h1⟩, h2⟩
    simp only at h1 h2
    subst h1; subst h2; exact hm
  · intro hm
    exact ⟨(user_id, model_id), ⟨hm, rfl⟩, rfl⟩

/-- C9: `delete_chat` removes exactly the chats row and the history rows of
the given chat and leaves favorites untouched; `delete_all_chats` removes
exactly the given user's chats and the history rows of those chats, leaving
every other row and all favorites unchanged. -/
theorem C9_delete_frame (db : DB) (cid : Nat) (uid : Nat) :
    (∀ c : ChatRow, c ∈ (delete_chat db cid).chats ↔ (c ∈ db.chats ∧ c.chat_id ≠ cid))
    ∧ (∀ h : HistRow, h ∈ (delete_chat db cid).history ↔ (h ∈ db.history ∧ h.chat_id ≠ cid))
    ∧ (delete_chat db cid).favorites = db.favorites
    ∧ (∀ c : ChatRow, c ∈ (delete_all_chats db uid).chats ↔ (c ∈ db.chats ∧ c.user_id ≠ uid))
    ∧ (∀ h : HistRow, h ∈ (delete_all_chats db uid).history
        ↔ (h ∈ db.history ∧ ¬ ∃ c ∈ db.chats, c.user_id = uid ∧ c.chat_id = h.chat_id))
    ∧ (delete_all_chats db uid).favorites = db.favorites := by
  refine ⟨fun c => ?_, fun h => ?_, rfl, fun c => ?_, fun h => ?_, rfl⟩
  · simp [delete_chat, List.mem_filter]
  · simp [delete_chat, List.mem_filter]
  · simp [delete_all_chats, List.mem_filter]
  · simp [delete_all_chats, List.mem_filter, List.any_eq_true]

/-- C10: `add_favorite` is idempotent — adding a model that is already a
favorite leaves the state unchanged — and toggling the favorite twice from
any state restores the original favorites set. -/
theorem C10_favorite_round_trip (db : DB) (uid : Nat) (mid : String) :
    ((uid, mid) ∈ db.favorites → add_favorite db uid mid = db)
    ∧ ∀ p : Nat × String,
        p ∈ (toggle_favorite (toggle_favorite db uid mid) uid mid).favorites
          ↔ p ∈ db.favorites := by
  constructor
  · intro hmem; simp [add_favorite, hmem]
  · intro p
    by_cases hmem : mid ∈ get_favorites db uid
    · -- first toggle removes, second adds back
      have e1 : toggle_favorite db uid mid = remove_favorite db uid mid := by
        rw [toggle_favorite, if_pos hmem]
      rw [e1]
      have hnot : ¬ mid ∈ get_favorites (remove_favorite db uid mid) uid := by
        rw [mem_get_favorites]
        simp [remove_favorite, List.mem_filter]
      rw [toggle_favorite, if_neg hnot]
      have hnot2 : ¬ (uid, mid) ∈ (remove_favorite db uid mid).favorites := by
        simp [remove_favorite, List.mem_filter]
      rw [add_favorite, if_neg hnot2]
      simp only [remove_favorite, List.mem_append, List.mem_filter,
        List.mem_singleton]
      by_cases hp : p = (uid, mid)
      · subst hp
        simp [(mem_get_favorites db uid mid).mp hmem]
      · have hne : ¬ (p.1 == uid && p.2 == mid) = true := by
          simp only [Bool.and_eq_true, beq_iff_eq]
          intro ⟨h1, h2⟩
          exact hp (Prod.ext h1 h2)
        simp [hp, hne]
    · -- first toggle adds, second removes it again
      have hnotmem : ¬ (uid, mid) ∈ db.favorites := fun h =>
        hmem (mem_get_favorites db uid mid |>.mpr h)
      have e1 : toggle_favorite db uid mid
          = { db with favorites := db.favorites ++ [(uid, mid)] } := by
        rw [toggle_favorite, if_neg hmem, add_favorite, if_neg hnotmem]
      rw [e1]
      have hyes : mid ∈ get_favorites
          { db with favorites := db.favorites ++ [(uid, mid)] } uid := by
        rw [mem_get_favorites]
        simp
      rw [toggle_favorite, if_pos hyes]
      simp only [remove_favorite, List.mem_filter, List.mem_append,
        List.mem_singleton]
      by_cases hp : p = (uid, mid)
      · subst hp; simp [hnotmem]
      · have hne : ¬ (p.1 == uid && p.2 == mid) = true := by
          simp only [Bool.and_eq_true, beq_iff_eq]
          intro ⟨h1, h2⟩
          exact hp (Prod.ext h1 h2)
        simp [hp, hne]

/-- C10 witness: the round trip evaluated on a one-favorite state. -/
theorem C10_favorite_round_trip_witness :
    add_favorite { DB.empty with favorites := [(1, "m")] } 1 "m"
        = { DB.empty with favorites := [(1, "m")] }
    ∧ ∀ p : Nat × String,
        p ∈ (toggle_favorite
              (toggle_favorite { DB.empty with favorites := [(1, "m")] } 1 "m")
              1 "m").favorites
          ↔ p ∈ ({ DB.empty with favorites := [(1, "m")] } : DB).favorites :=
  ⟨(C10_favorite_round_trip { DB.empty with favorites := [(1, "m")] } 1 "m").1
      (by decide),
   (C10_favorite_round_trip { DB.empty with favorites := [(1, "m")] } 1 "m").2⟩

/-- C1 counterexample: a chunk whose delta content is the empty string has
length below the small threshold (0 < 3), yet the handler's truthiness guard
skips it and no edit is emitted, so the claimed "exactly when" equivalence
fails for it. -/
theorem C1_counterexample :
    ¬ (((process_chunk (initial_state 0) (some "") 0 true).2 = true)
        ↔ (edit_interval ≤ 0 - (initial_state 0).last_edit_time
            ∨ ("" : String).length < 3)) :=
  fun h => Bool.false_ne_true (h.mpr (Or.inr (by decide)))

/-- C1 amended: for every incoming delta with nonempty content the handler
appends the delta to the accumulated answer and attempts an edit of the
placeholder exactly when the elapsed time since the last successful edit
reaches `edit_interval` (1.5 s) or the delta is shorter than 3 characters;
otherwise no edit is emitted and the timer is untouched.  Deltas with missing
or empty content are skipped entirely. -/
theorem C1_throttled_edits (st : StreamState) (s : String) (now : ℚ) (ok : Bool)
    (hs : s ≠ "") :
    ((process_chunk st (some s) now ok).1.full_answer = st.full_answer ++ s)
    ∧ ((process_chunk st (some s) now ok).2 = true
        ↔ (edit_interval ≤ now - st.last_edit_time ∨ s.length < 3))
    ∧ ((process_chunk st (some s) now ok).2 = false
        → (process_chunk st (some s) now ok).1.edits = st.edits
          ∧ (process_chunk st (some s) now ok).1.last_edit_time = st.last_edit_time)
    ∧ process_chunk st none now ok = (st, false)
    ∧ process_chunk st (some "") now ok = (st, false) := by
  have h5 : process_chunk st (some "") now ok = (st, false) := by
    simp [process_chunk]
  simp only [process_chunk, if_neg hs]
  by_cases hc : edit_interval ≤ now - st.last_edit_time ∨ s.length < 3
  · rw [if_pos hc]
    cases ok <;> simp [hc, h5]
  · rw [if_neg hc]
    simp [hc, h5]

/-- C1 witness: the amended statement evaluated on a concrete two-character
delta arriving at the start of the stream. -/
theorem C1_throttled_edits_witness :
    (("ab" : String) ≠ "")
    ∧ (((process_chunk (initial_state 0) (some "ab") 0 true).1.full_answer
          = (initial_state 0).full_answer ++ "ab")
      ∧ ((process_chunk (initial_state 0) (some "ab") 0 true).2 = true
          ↔ (edit_interval ≤ 0 - (initial_state 0).last_edit_time
              ∨ ("ab" : String).length < 3))
      ∧ ((process_chunk (initial_state 0) (some "ab") 0 true).2 = false
          → (process_chunk (initial_state 0) (some "ab") 0 true).1.edits
              = (initial_state 0).edits
            ∧ (process_chunk (initial_state 0) (some "ab") 0 true).1.last_edit_time
              = (initial_state 0).last_edit_time)
      ∧ process_chunk (initial_state 0) none 0 true = (initial_state 0, false)
      ∧ process_chunk (initial_state 0) (some "") 0 true = (initial_state 0, false)) :=
  ⟨by decide, C1_throttled_edits (initial_state 0) "ab" 0 true (by decide)⟩

/-- One chunk always extends `full_answer` by exactly its content (nothing
for a missing content). -/
theorem process_chunk_full_answer (st : StreamState) (d : Option String)
    (now : ℚ) (ok : Bool) :
    (process_chunk st d now ok).1.full_answer = st.full_answer ++ d.getD "" := by
  cases d with
  | none => simp [process_chunk]
  | some s =>
    by_cases hs : s = ""
    · subst hs; simp [process_chunk]
    · simp only [process_chunk, if_neg hs, Option.getD_some]
      by_cases hc : edit_interval ≤ now - st.last_edit_time ∨ s.length < 3
      · rw [if_pos hc]; cases ok <;> simp
      · rw [if_neg hc]

/-- After the whole stream, `full_answer` is the concatenation of all delta
contents in arrival order. -/
theorem run_stream_full_answer (inputs : List StreamInput) (st : StreamState) :
    (run_stream st inputs).full_answer = st.full_answer ++ concat_deltas inputs := by
  induction inputs generalizing st with
  | nil => simp [run_stream, concat_deltas]
  | cons i rest ih =>
    show (run_stream (process_chunk st i.delta i.now i.edit_ok).1 rest).full_answer = _
    rw [ih, process_chunk_full_answer]
    show _ = st.full_answer ++ (i.delta.getD "" ++ concat_deltas rest)
    rw [String.append_assoc]

/-- C7: when the stream completes without error, the last transport action is
an edit of the placeholder to exactly the concatenation of all received delta
contents in arrival order, with no trailing cursor character, and that same
full answer is stored as an "assistant" turn of the session's history. -/
theorem C7_final_edit_and_persist (db : DB) (chat_id : Nat) (t0 : ℚ)
    (inputs : List StreamInput) :
    ((handle_outcome db chat_id t0 (.success inputs)).1).getLast?
      = some (.edit (concat_deltas inputs))
    ∧ (handle_outcome db chat_id t0 (.success inputs)).2.history
      = db.history ++ [{ message_id := db.nextMsgId, chat_id := chat_id,
                         role := "assistant", content := concat_deltas inputs,
                         timestamp := db.clock }] := by
  have hfull : (run_stream (initial_state t0) inputs).full_answer
      = concat_deltas inputs := by
    rw [run_stream_full_answer]
    show "" ++ _ = _
    simp
  constructor
  · show (BotAction.api_request ::
        ((run_stream (initial_state t0) inputs).edits.map .edit
          ++ [.edit (run_stream (initial_state t0) inputs).full_answer])).getLast? = _
    rw [hfull]
    rw [show (BotAction.api_request ::
        ((run_stream (initial_state t0) inputs).edits.map .edit
          ++ [.edit (concat_deltas inputs)]))
      = ((BotAction.api_request ::
          (run_stream (initial_state t0) inputs).edits.map .edit)
          ++ [.edit (concat_deltas inputs)]) from rfl]
    exact List.getLast?_concat _
  · show (add_message db chat_id "assistant"
        (run_stream (initial_state t0) inputs).full_answer).history = _
    rw [hfull]
    rfl

/-- Inserting a row whose timestamp is below everything in the list lands at
the end. -/
theorem insertTsDesc_append (r : HistRow) (m : List HistRow)
    (h : ∀ x ∈ m, r.timestamp ≤ x.timestamp) : insertTsDesc r m = m ++ [r] := by
  induction m with
  | nil => rfl
  | cons x xs ih =>
    rw [insertTsDesc, if_pos (h x (List.mem_cons_self x xs))]
    rw [ih (fun y hy => h y (List.mem_cons_of_mem x hy))]
    rfl

/-- Sorting by timestamp descending reverses a strictly ascending list. -/
theorem sortTsDesc_of_ascending (l : List HistRow)
    (h : l.Pairwise (fun a b => a.timestamp < b.timestamp)) :
    sortTsDesc l = l.reverse := by
  induction l with
  | nil => rfl
  | cons a rest ih =>
    have h1 := (List.pairwise_cons.mp h).1
    have h2 := (List.pairwise_cons.mp h).2
    show insertTsDesc a (sortTsDesc rest) = (a :: rest).reverse
    rw [ih h2, insertTsDesc_append]
    · rw [List.reverse_cons]
    · intro x hx
      exact (h1 x (List.mem_reverse.mp hx)).le

/-- C3: when the chat's stored timestamps strictly increase in insertion
order, `get_history` returns at most `HISTORY_LIMIT` (10) messages, and they
are exactly the most recent ones in chronological (oldest-to-newest) order,
each projected to a role/content pair. -/
theorem C3_history_window (db : DB) (cid : Nat)
    (h : (db.history.filter (fun r => r.chat_id == cid)).Pairwise
      (fun a b => a.timestamp < b.timestamp)) :
    (get_history db cid HISTORY_LIMIT).length ≤ HISTORY_LIMIT
    ∧ get_history db cid HISTORY_LIMIT
      = ((db.history.filter (fun r => r.chat_id == cid)).map
          (fun r => (r.role, r.content))).drop
          ((db.history.filter (fun r => r.chat_id == cid)).length - HISTORY_LIMIT) := by
  refine ⟨get_history_length_le db cid HISTORY_LIMIT, ?_⟩
  unfold get_history
  rw [sortTsDesc_of_ascending _ h]
  rw [← List.map_reverse, List.take_reverse, List.reverse_reverse]
  exact List.map_drop _ _ _

/-- C3 witness: the trailing window evaluated on a session holding three
messages. -/
theorem C3_history_window_witness :
    (((add_message (add_message (add_message DB.empty 1 "user" "a")
          1 "assistant" "b") 1 "user" "c").history.filter
        (fun r => r.chat_id == 1)).Pairwise
      (fun a b => a.timestamp < b.timestamp))
    ∧ ((get_history (add_message (add_message (add_message DB.empty 1 "user" "a")
          1 "assistant" "b") 1 "user" "c") 1 HISTORY_LIMIT).length ≤ HISTORY_LIMIT
      ∧ get_history (add_message (add_message (add_message DB.empty 1 "user" "a")
            1 "assistant" "b") 1 "user" "c") 1 HISTORY_LIMIT
        = (((add_message (add_message (add_message DB.empty 1 "user" "a")
              1 "assistant" "b") 1 "user" "c").history.filter
              (fun r => r.chat_id == 1)).map
            (fun r => (r.role, r.content))).drop
            (((add_message (add_message (add_message DB.empty 1 "user" "a")
                1 "assistant" "b") 1 "user" "c").history.filter
                (fun r => r.chat_id == 1)).length - HISTORY_LIMIT)) :=
  ⟨by decide,
   C3_history_window (add_message (add_message (add_message DB.empty 1 "user" "a")
      1 "assistant" "b") 1 "user" "c") 1 (by decide)⟩

/-- A successful lookup exhibits a member of the association list. -/
theorem mem_of_catalog_lookup {l : List (String × ModelInfo)} {k : String}
    {v : ModelInfo} (h : l.lookup k = some v) : (k, v) ∈ l := by
  obtain ⟨l₁, l₂, rfl, -⟩ := List.lookup_eq_some_iff.mp h
  simp

/-- Under the catalog invariant, dict assignment of a key's own entry either
leaves the dict unchanged or appends the new binding. -/
theorem dictAssign_model_entry {d : List (String × ModelInfo)} (k : String)
    (hinv : catalogInv d) :
    dictAssign d k (model_entry k)
      = if (d.lookup k).isSome then d else d ++ [(k, model_entry k)] := by
  unfold dictAssign
  by_cases hk : (d.lookup k).isSome
  · rw [if_pos hk, if_pos hk]
    have hid : ∀ p ∈ d, (if p.1 == k then (k, model_entry k) else p) = p := by
      intro p hp
      by_cases hpk : (p.1 == k) = true
      · rw [if_pos hpk]
        have hk1 : p.1 = k := beq_iff_eq.mp hpk
        rw [← hk1, ← hinv p hp]
      · rw [if_neg hpk]
    rw [List.map_congr_left hid, List.map_id']
  · rw [if_neg hk, if_neg hk]

/-- Dict assignment of a key's own entry preserves the catalog invariant. -/
theorem catalogInv_dictAssign {d : List (String × ModelInfo)} (k : String)
    (hinv : catalogInv d) : catalogInv (dictAssign d k (model_entry k)) := by
  rw [dictAssign_model_entry k hinv]
  by_cases hk : (d.lookup k).isSome
  · rw [if_pos hk]; exact hinv
  · rw [if_neg hk]
    intro p hp
    rcases List.mem_append.mp hp with h | h
    · exact hinv p h
    · rw [List.mem_singleton.mp h]

/-- Dict assignment keeps the keys without duplicates. -/
theorem keys_nodup_dictAssign {d : List (String × ModelInfo)} (k : String)
    (hinv : catalogInv d) (hnd : (d.map Prod.fst).Nodup) :
    ((dictAssign d k (model_entry k)).map Prod.fst).Nodup := by
  rw [dictAssign_model_entry k hinv]
  by_cases hk : (d.lookup k).isSome
  · rw [if_pos hk]; exact hnd
  · rw [if_neg hk]
    rw [List.map_append]
    rw [List.nodup_append]
    refine ⟨hnd, List.nodup_singleton k, ?_⟩
    intro x hx hx2
    rw [List.mem_singleton.mp hx2] at hx
    apply hk
    rw [List.lookup_isSome_iff]
    obtain ⟨p, hp, hpk⟩ := List.mem_map.mp hx
    exact ⟨p, hp, by rw [beq_iff_eq, hpk]⟩

/-- Keys found after a dict assignment: the old keys plus the assigned one. -/
theorem lookup_isSome_dictAssign {d : List (String × ModelInfo)}
    (k m : String) (hinv : catalogInv d) :
    ((dictAssign d m (model_entry m)).lookup k).isSome = true
      ↔ ((d.lookup k).isSome = true ∨ k = m) := by
  rw [dictAssign_model_entry m hinv]
  by_cases hm : (d.lookup m).isSome
  · rw [if_pos hm]
    constructor
    · exact Or.inl
    · rintro (h | rfl)
      · exact h
      · exact hm
  · rw [if_neg hm]
    rw [List.lookup_append]
    cases hkm : k == m
    · have hne : k ≠ m := by simpa using hkm
      simp [List.lookup_cons, hkm, hne]
    · have heq : k = m := by simpa using hkm
      cases hk : d.lookup k with
      | none => simp [List.lookup_cons, hkm, heq]
      | some v => simp [List.lookup_cons, hkm, heq, hk]

/-- The catalog fold preserves the catalog invariant. -/
theorem catalogInv_catalogFold (ks : List String) :
    ∀ d : List (String × ModelInfo), catalogInv d → catalogInv (catalogFold d ks) := by
  induction ks with
  | nil => intro d hinv; exact hinv
  | cons m ms ih =>
    intro d hinv
    exact ih _ (catalogInv_dictAssign m hinv)

/-- The catalog fold keeps the keys without duplicates. -/
theorem keys_nodup_catalogFold (ks : List String) :
    ∀ d : List (String × ModelInfo), catalogInv d → (d.map Prod.fst).Nodup →
      ((catalogFold d ks).map Prod.fst).Nodup := by
  induction ks with
  | nil => intro d _ hnd; exact hnd
  | cons m ms ih =>
    intro d hinv hnd
    exact ih _ (catalogInv_dictAssign m hinv) (keys_nodup_dictAssign m hinv hnd)

/-- Keys found after the catalog fold: the old keys plus the processed ones. -/
theorem lookup_isSome_catalogFold (ks : List String) :
    ∀ d : List (String × ModelInfo), catalogInv d → ∀ k : String,
      (((catalogFold d ks).lookup k).isSome = true
        ↔ ((d.lookup k).isSome = true ∨ k ∈ ks)) := by
  induction ks with
  | nil => intro d _ k; simp [catalogFold]
  | cons m ms ih =>
    intro d hinv k
    show (((catalogFold (dictAssign d m (model_entry m)) ms).lookup k).isSome = true) ↔ _
    rw [ih _ (catalogInv_dictAssign m hinv) k,
      lookup_isSome_dictAssign k m hinv, List.mem_cons]
    tauto

/-- C6 counterexample: for the provider id `"p/m:free:free"` the code's
`replace(':free', '')` strips every occurrence of `":free"`, giving the short
name `"m"`, while the claim's suffix-only removal would give `"m:free"`. -/
theorem C6_counterexample :
    (update_models [] ["p/m:free:free"]).lookup "p/m:free:free"
      = some { name := "m", multimodal := false }
    ∧ spec_short_name "p/m:free:free" = "m:free"
    ∧ short_name "p/m:free:free" = "m"
    ∧ ("m" : String) ≠ "m:free" := by decide

/-- C6 amended: `update_models` rebuilds the catalog from scratch (the result
does not depend on the previous catalog); the new catalog has exactly one
entry per provider id ending in `":free"`, keyed by the full id, and each
entry is `model_entry`: the short name is the segment after the last `'/'`
with every occurrence of `":free"` removed, and the multimodal flag holds iff
the lowercased short name contains one of the indicators. -/
theorem C6_catalog_rebuild (prev : List (String × ModelInfo)) (ids : List String) :
    update_models prev ids = update_models [] ids
    ∧ ((update_models prev ids).map Prod.fst).Nodup
    ∧ (∀ m : String, ((update_models prev ids).lookup m).isSome = true
        ↔ (m ∈ ids ∧ pyEndsWith m ":free" = true))
    ∧ (∀ m info, (update_models prev ids).lookup m = some info
        → info = model_entry m) := by
  have hinv0 : catalogInv [] := fun p hp => absurd hp (List.not_mem_nil p)
  have hupd : update_models prev ids = catalogFold [] (get_available_models ids) := rfl
  refine ⟨rfl, ?_, ?_, ?_⟩
  · rw [hupd]
    exact keys_nodup_catalogFold _ [] hinv0 (by simp)
  · intro m
    rw [hupd, lookup_isSome_catalogFold _ [] hinv0 m]
    simp [get_available_models, List.mem_filter]
  · intro m info h
    rw [hupd] at h
    exact catalogInv_catalogFold (get_available_models ids) [] hinv0
      (m, info) (mem_of_catalog_lookup h)

end TgBot
